import Mathlib

/-!
Verification development for the smart-advisor synchronization layer.

The embedding models, from the repository's source:
* the record codec and CRUD/batch/reconciliation operations of the
  RemoteStorage "todonna" module (`src/lib/remotestorage-todonna.ts`),
* the lightweight `TodonnaModule` variant (`src/app/api/ai-proxy/route.js`),
* the local-state coordinator hook (`src/unnamed/part_001`).

JavaScript values are modelled as follows: an optional / possibly-`undefined`
field is an `Option`; a JS `Date` object is identified by its epoch-millisecond
instant (`DateV.inst`), with `DateV.invalid` standing for an Invalid Date and
`DateV.str` for a plain string held in a date-typed field; `Date#toISOString`
is modelled by `isoOfInstant`, an injective rendering of the instant into a
nonempty string, and the `Date` constructor applied to a string by
`instantOfString`, its partial inverse (unparseable strings give Invalid
Date).  The remote object store is an association list from keys to wire
objects; the client keeps a `fresh` store (what a `maxAge = 0` read returns)
and a `cache` store (what any other read returns), plus lists of keys whose
fetch / store / remove the backend rejects, modelling StorageError injection.
-/

/-- Todo status enumeration from the Todonna wire schema. -/
inductive TStatus where
  | pending
  | done
  | archived
deriving DecidableEq, Repr

/-- Value held in a date-typed record field: a JS `Date` object at a given
epoch-millisecond instant, an Invalid Date, or a plain string. -/
inductive DateV where
  | inst (ms : Int)
  | invalid
  | str (s : String)
deriving DecidableEq, Repr

/-- Character-level rendering of an instant; stands in for ISO-8601 formatting
(injective, never empty). -/
def isoChars : Int → List Char
  | Int.ofNat n => '+' :: List.replicate n 'I'
  | Int.negSucc n => '-' :: List.replicate n 'I'

/-- Model of `Date#toISOString` on a valid `Date`. -/
def isoOfInstant (ms : Int) : String := String.mk (isoChars ms)

/-- Character-level parse of a serialized instant. -/
def parseChars : List Char → Option Int
  | [] => none
  | c :: rest =>
    if c = '+' then some (Int.ofNat rest.length)
    else if c = '-' then some (Int.negSucc rest.length)
    else none

/-- Model of `new Date(s)` on a string: `some` instant when the string is a
serialized instant, `none` for Invalid Date. -/
def instantOfString (s : String) : Option Int := parseChars s.data

/-- Local calendar day of an instant, for a timezone offset in minutes; models
`Date#toDateString` equality (wall-clock day). -/
def localDay (tzMin : Int) (ms : Int) : Int := Int.fdiv (ms + tzMin * 60000) 86400000

/-- JS `a || b` on a possibly-absent string (`""` and `undefined` are falsy). -/
def jsOrString (o : Option String) (d : String) : String :=
  match o with
  | some s => if s = "" then d else s
  | none => d

/-- The domain record (`TodoItem`).  Fields that JS code may leave `undefined`
are `Option`s; `removed` is read only through falsy checks, so absent and
`false` coincide. -/
structure TodoItem where
  id : String
  text : Option String
  completed : Option Bool
  todo_item_status : Option TStatus
  emoji : Option String
  date : Option DateV
  time : Option String
  removed : Bool
deriving DecidableEq, Repr

/-- The Todonna wire object.  `completed` is the legacy completion flag some
stored objects carry; `removed` is written only by the lightweight module. -/
structure TodonnaItem where
  todo_item_id : Option String
  todo_item_text : Option String
  todo_item_status : Option TStatus
  emoji : Option String
  date : Option String
  time : Option String
  completed : Option Bool
  removed : Option Bool
deriving DecidableEq, Repr

/-- A partial update object (`Partial<Omit<TodoItem, 'id'>>`): each field is
present or absent. -/
structure PartialTodo where
  text : Option String
  completed : Option Bool
  todo_item_status : Option TStatus
  emoji : Option String
  date : Option DateV
  time : Option String
  removed : Option Bool
deriving DecidableEq, Repr

/-- JS object spread `{ ...cur, ...p }`: fields present in `p` override. -/
def mergeTodo (cur : TodoItem) (p : PartialTodo) : TodoItem :=
  { id := cur.id
    text := match p.text with | some v => some v | none => cur.text
    completed := match p.completed with | some v => some v | none => cur.completed
    todo_item_status :=
      match p.todo_item_status with | some v => some v | none => cur.todo_item_status
    emoji := match p.emoji with | some v => some v | none => cur.emoji
    date := match p.date with | some v => some v | none => cur.date
    time := match p.time with | some v => some v | none => cur.time
    removed := match p.removed with | some v => v | none => cur.removed }

/-- Spreading a full record as an update object (used by `replaceAll`, which
passes whole records as `updates`). -/
def partialOfTodo (t : TodoItem) : PartialTodo :=
  { text := t.text
    completed := t.completed
    todo_item_status := t.todo_item_status
    emoji := t.emoji
    date := t.date
    time := t.time
    removed := some t.removed }

/-- `{ ...cur, ...p, id }`: the shallow merge with the id forced back to the
storage key, as both update implementations build it. -/
def mergedWithId (cur : TodoItem) (p : PartialTodo) (id : String) : TodoItem :=
  { mergeTodo cur p with id := id }

/-- Modelled from the spec: the status an application record denotes — an
explicit completion boolean takes precedence and collapses to done/pending;
absent both flag and status, the status defaults to pending. -/
def normStatus (r : TodoItem) : TStatus :=
  match r.completed with
  | some true => TStatus.done
  | some false => TStatus.pending
  | none =>
    match r.todo_item_status with
    | some s => s
    | none => TStatus.pending

/-- The remote scope contents: key-to-wire-object bindings. -/
abbrev Store := List (String × TodonnaItem)

/-- First binding for a key, as JS object lookup. -/
def lookupStore : Store → String → Option TodonnaItem
  | [], _ => none
  | (k, v) :: rest, key => if k = key then some v else lookupStore rest key

/-- Replace the binding at a key, or append one. -/
def upsert : Store → String → TodonnaItem → Store
  | [], k, v => [(k, v)]
  | (k', v') :: rest, k, v =>
    if k' = k then (k, v) :: rest else (k', v') :: upsert rest k v

/-- Erase every binding at a key. -/
def eraseKey : Store → String → Store
  | [], _ => []
  | (k', v') :: rest, k =>
    if k' = k then eraseKey rest k else (k', v') :: eraseKey rest k

/-- Listing: the keys of the scope. -/
def storeKeys (st : Store) : List String := st.map (fun p => p.1)

/-- The per-scope client.  `fresh` is what a `maxAge = 0` read sees, `cache`
what any other read sees; the three fail lists inject backend StorageErrors
for specific keys. -/
structure Client where
  fresh : Store
  cache : Store
  getFails : List String
  storeFails : List String
  removeFails : List String
deriving DecidableEq, Repr

/-- Which store a read with the given freshness bound consults: `maxAge = 0`
forces the fresh store, anything else (including an absent bound) may be
served from cache. -/
def readStore (c : Client) (maxAge : Option Nat) : Store :=
  if maxAge = some 0 then c.fresh else c.cache

/-- `privateClient.getObject(key, maxAge)`: rejected for keys in `getFails`,
otherwise the object at the key (or absent). -/
def Client.getObject (c : Client) (k : String) (maxAge : Option Nat) :
    Except String (Option TodonnaItem) :=
  if k ∈ c.getFails then Except.error "fetch failed"
  else Except.ok (lookupStore (readStore c maxAge) k)

/-- `privateClient.storeObject('todonna-item', key, payload)`: the declared
schema requires `todo_item_text`, so a payload without it fails validation;
keys in `storeFails` are rejected by the backend; otherwise the object is
written through to both stores. -/
def Client.storeObject (c : Client) (k : String) (v : TodonnaItem) :
    Except String Client :=
  if v.todo_item_text.isNone then Except.error "schema validation failed"
  else if k ∈ c.storeFails then Except.error "store failed"
  else Except.ok { c with fresh := upsert c.fresh k v, cache := upsert c.cache k v }

/-- `privateClient.remove(key)`. -/
def Client.removeObject (c : Client) (k : String) : Except String Client :=
  if k ∈ c.removeFails then Except.error "remove failed"
  else Except.ok { c with fresh := eraseKey c.fresh k, cache := eraseKey c.cache k }

/-- `privateClient.getListing('', maxAge)`: keys of the consulted store. -/
def Client.getListing (c : Client) (maxAge : Option Nat) : List String :=
  storeKeys (readStore c maxAge)

namespace Todonna

/-- Default freshness bound of `getAll` (24 hours in milliseconds). -/
def DAY_MS : Nat := 1000 * 60 * 60 * 24

/-- `toTodonnaItem` (src/lib/remotestorage-todonna.ts:149-175): encode a record
to the wire.  An explicit `completed` boolean takes precedence for the status;
empty/undefined optional fields are omitted; a `Date`-valued `date` is
serialized (`toISOString` on an Invalid Date throws a RangeError). -/
def toTodonnaItem (todo : TodoItem) : Except String TodonnaItem :=
  let status : Option TStatus :=
    match todo.completed with
    | some b => some (if b then TStatus.done else TStatus.pending)
    | none => todo.todo_item_status
  let emoji : Option String :=
    match todo.emoji with
    | some e => if e = "" then none else some e
    | none => none
  let time : Option String :=
    match todo.time with
    | some t => if t = "" then none else some t
    | none => none
  let dateE : Except String (Option String) :=
    match todo.date with
    | none => Except.ok none
    | some (DateV.inst ms) => Except.ok (some (isoOfInstant ms))
    | some DateV.invalid => Except.error "RangeError: invalid time value"
    | some (DateV.str s) => Except.ok (some s)
  match dateE with
  | Except.error e => Except.error e
  | Except.ok d =>
    Except.ok
      { todo_item_id := some todo.id
        todo_item_text := todo.text
        todo_item_status := status
        emoji := emoji
        date := d
        time := time
        completed := none
        removed := none }

/-- `fromTodonnaItem` (src/lib/remotestorage-todonna.ts:180-200): decode a wire
object.  A truthy wire status decides completion (`done` iff the status is
`done`); otherwise a legacy `completed === true` field; the result's status is
always done or pending.  An absent (or empty, hence falsy) wire date decodes
to `new Date()`, the decode moment `now`; `removed` is always `false`. -/
def fromTodonnaItem (now : Int) (id : String) (item : TodonnaItem) : TodoItem :=
  let completed : Bool :=
    match item.todo_item_status with
    | some TStatus.done => true
    | some _ => false
    | none =>
      match item.completed with
      | some true => true
      | _ => false
  { id := jsOrString item.todo_item_id id
    text := item.todo_item_text
    completed := none
    todo_item_status := some (if completed then TStatus.done else TStatus.pending)
    emoji := item.emoji
    date :=
      some (match item.date with
        | some s =>
          if s = "" then DateV.inst now
          else
            match instantOfString s with
            | some ms => DateV.inst ms
            | none => DateV.invalid
        | none => DateV.inst now)
    time := item.time
    removed := false }

/-- `add` (src/lib/remotestorage-todonna.ts:222-225): encode and store at
`todo.id` unconditionally. -/
def add (c : Client) (todo : TodoItem) : Except String Client :=
  match toTodonnaItem todo with
  | Except.error e => Except.error e
  | Except.ok item => c.storeObject todo.id item

/-- `update` (src/lib/remotestorage-todonna.ts:242-257): force-fresh read
(`maxAge = 0`); throws not-found when absent; shallow-merges the update onto
the decoded record, forcing `id`, re-encodes and stores at the same key. -/
def update (c : Client) (now : Int) (id : String) (p : PartialTodo) :
    Except String Client :=
  match c.getObject id (some 0) with
  | Except.error e => Except.error e
  | Except.ok none => Except.error ("Todo with id " ++ id ++ " not found")
  | Except.ok (some item) =>
    let currentTodo := fromTodonnaItem now id item
    match toTodonnaItem (mergedWithId currentTodo p id) with
    | Except.error e => Except.error e
    | Except.ok wire => c.storeObject id wire

/-- The state a caller holds after `update`, catching its rejection: the scope
is unchanged when the call fails. -/
def updateCaught (c : Client) (now : Int) (id : String) (p : PartialTodo) : Client :=
  match update c now id p with
  | Except.ok c2 => c2
  | Except.error _ => c

/-- `remove` (src/lib/remotestorage-todonna.ts:277-279): hard delete. -/
def removeTodo (c : Client) (id : String) : Except String Client :=
  c.removeObject id

/-- `get` (src/lib/remotestorage-todonna.ts:296-307): null for an absent
object or one without `todo_item_text`; other fetch failures propagate. -/
def get (c : Client) (now : Int) (id : String) (maxAge : Option Nat) :
    Except String (Option TodoItem) :=
  match c.getObject id maxAge with
  | Except.error e => Except.error e
  | Except.ok none => Except.ok none
  | Except.ok (some it) =>
    if it.todo_item_text.isSome then Except.ok (some (fromTodonnaItem now id it))
    else Except.ok none

/-- One key's contribution to `getAll`: `none` when the fetch is rejected
(`Promise.allSettled` drops it), the object is absent, or it lacks
`todo_item_text`. -/
def decodeEntry (c : Client) (now : Int) (maxAge : Option Nat) (k : String) :
    Option TodoItem :=
  match c.getObject k maxAge with
  | Except.error _ => none
  | Except.ok none => none
  | Except.ok (some item) =>
    if item.todo_item_text.isSome then some (fromTodonnaItem now k item) else none

/-- `getAll` (src/lib/remotestorage-todonna.ts:327-366): list keys, decode
each with settle-all semantics, keep a record when `includeRemoved` is set or
its `removed` flag is false. -/
def getAllWith (c : Client) (now : Int) (maxAge : Option Nat)
    (includeRemoved : Bool) : List TodoItem :=
  ((c.getListing maxAge).filterMap (decodeEntry c now maxAge)).filter
    (fun t => includeRemoved || !t.removed)

/-- The instant denoted by `new Date(todo.date)` in `getByDate`'s filter:
clones a `Date`, parses a string, Invalid Date (also from `undefined`)
matches no day. -/
def dateInstant : Option DateV → Option Int
  | some (DateV.inst ms) => some ms
  | some DateV.invalid => none
  | some (DateV.str s) => instantOfString s
  | none => none

/-- `getByDate` (src/lib/remotestorage-todonna.ts:381-392): `getAll`, then
filter by local-calendar-day equality with the target date. -/
def getByDate (c : Client) (now : Int) (tzMin : Int) (d : Int)
    (maxAge : Option Nat) (includeRemoved : Bool) : List TodoItem :=
  (getAllWith c now maxAge includeRemoved).filter (fun t =>
    match dateInstant t.date with
    | some ms => decide (localDay tzMin ms = localDay tzMin d)
    | none => false)

/-- Result of a batch operation: counts plus the ordered `(id, error)` list. -/
structure BatchResult where
  succeeded : Nat
  failed : Nat
  errors : List (String × String)
deriving DecidableEq, Repr

/-- The sequential batch loop shared verbatim by `batchAdd`, `batchUpdate`
and `batchRemove` (src/lib/remotestorage-todonna.ts:412-531): each item's
outcome is captured independently; with `stopOnError` the loop breaks at the
first failure, leaving later items unattempted. -/
def batchRun {α : Type} (step : Client → α → Except String Client)
    (getId : α → String) (stopOnError : Bool) :
    Client → List α → Client × BatchResult
  | c, [] => (c, ⟨0, 0, []⟩)
  | c, a :: rest =>
    match step c a with
    | Except.ok c' =>
      let r := batchRun step getId stopOnError c' rest
      (r.1, { r.2 with succeeded := r.2.succeeded + 1 })
    | Except.error e =>
      if stopOnError then (c, ⟨0, 1, [(getId a, e)]⟩)
      else
        let r := batchRun step getId stopOnError c rest
        (r.1, { succeeded := r.2.succeeded, failed := r.2.failed + 1,
                errors := (getId a, e) :: r.2.errors })

/-- `batchAdd` (src/lib/remotestorage-todonna.ts:412-441). -/
def batchAdd (c : Client) (todos : List TodoItem) (stopOnError : Bool) :
    Client × BatchResult :=
  batchRun (fun c t => add c t) (fun t => t.id) stopOnError c todos

/-- `batchUpdate` (src/lib/remotestorage-todonna.ts:458-487). -/
def batchUpdate (c : Client) (now : Int) (items : List (String × PartialTodo))
    (stopOnError : Bool) : Client × BatchResult :=
  batchRun (fun c it => update c now it.1 it.2) (fun it => it.1) stopOnError c items

/-- `batchRemove` (src/lib/remotestorage-todonna.ts:502-531). -/
def batchRemove (c : Client) (ids : List String) (stopOnError : Bool) :
    Client × BatchResult :=
  batchRun (fun c i => removeTodo c i) (fun i => i) stopOnError c ids

/-- The snapshot `replaceAll` diffs against: all existing records, removed
ones included, at the default freshness bound. -/
def existingSnapshot (c : Client) (now : Int) : List TodoItem :=
  getAllWith c now (some DAY_MS) true

/-- Ids of the snapshot records. -/
def snapshotIds (c : Client) (now : Int) : List String :=
  (existingSnapshot c now).map (fun t => t.id)

/-- Ids of the records passed to `replaceAll`. -/
def newIds (todos : List TodoItem) : List String := todos.map (fun t => t.id)

/-- `replaceAll`'s add set: new records whose id is not in the snapshot. -/
def toAddL (todos : List TodoItem) (existingIds : List String) : List TodoItem :=
  todos.filter (fun t => decide (¬ t.id ∈ existingIds))

/-- `replaceAll`'s update set: new records whose id is in the snapshot. -/
def toUpdateL (todos : List TodoItem) (existingIds : List String) : List TodoItem :=
  todos.filter (fun t => decide (t.id ∈ existingIds))

/-- `replaceAll`'s remove set: snapshot ids not among the new ids. -/
def toRemoveL (existing : List TodoItem) (newIds : List String) : List String :=
  (existing.filter (fun t => decide (¬ t.id ∈ newIds))).map (fun t => t.id)

/-- `replaceAll` (src/lib/remotestorage-todonna.ts:613-647): snapshot the
existing records (including removed ones) at the default freshness bound,
diff by id, run the three batches (which address pairwise disjoint key sets;
modelled in their tuple order) and merge the results by summing counts and
concatenating errors. -/
def replaceAll (c : Client) (now : Int) (todos : List TodoItem) :
    Client × BatchResult :=
  let existing := existingSnapshot c now
  let existingIds := snapshotIds c now
  let nIds := newIds todos
  let toAdd := toAddL todos existingIds
  let toUpdate := toUpdateL todos existingIds
  let toRemove := toRemoveL existing nIds
  let ra := batchAdd c toAdd false
  let ru := batchUpdate ra.1 now (toUpdate.map (fun t => (t.id, partialOfTodo t))) false
  let rr := batchRemove ru.1 toRemove false
  (rr.1,
    { succeeded := ra.2.succeeded + ru.2.succeeded + rr.2.succeeded
      failed := ra.2.failed + ru.2.failed + rr.2.failed
      errors := ra.2.errors ++ ru.2.errors ++ rr.2.errors })

end Todonna

namespace TodonnaModule

/-- `isNotFoundError` (src/app/api/ai-proxy/route.js:86-90), on the modelled
error messages: only a "Not Found" error is in the not-found family. -/
def isNotFoundError (e : String) : Bool := e = "Not Found"

/-- `toStorage` (src/app/api/ai-proxy/route.js:62-72): a truthy record status
wins over the completion flag; `date` is re-serialized through
`new Date(todo.date).toISOString()` when truthy (throwing on an unparseable
value); `removed` is written to the wire. -/
def toStorage (todo : TodoItem) : Except String TodonnaItem :=
  let status : TStatus :=
    match todo.todo_item_status with
    | some st => st
    | none => match todo.completed with
      | some true => TStatus.done
      | _ => TStatus.pending
  let dateE : Except String (Option String) :=
    match todo.date with
    | none => Except.ok none
    | some (DateV.inst ms) => Except.ok (some (isoOfInstant ms))
    | some DateV.invalid => Except.error "RangeError: invalid time value"
    | some (DateV.str s) =>
      if s = "" then Except.ok none
      else
        match instantOfString s with
        | some ms => Except.ok (some (isoOfInstant ms))
        | none => Except.error "RangeError: invalid time value"
  match dateE with
  | Except.error e => Except.error e
  | Except.ok d =>
    Except.ok
      { todo_item_id := some todo.id
        todo_item_text := todo.text
        todo_item_status := some status
        emoji := todo.emoji
        date := d
        time := todo.time
        completed := none
        removed := some todo.removed }

/-- `fromStorage` (src/app/api/ai-proxy/route.js:74-84): status defaults to
pending, the wire date string is kept raw, `removed` is read with a falsy
default. -/
def fromStorage (id : String) (stored : TodonnaItem) : TodoItem :=
  { id := jsOrString stored.todo_item_id id
    text := stored.todo_item_text
    completed := none
    todo_item_status :=
      some (match stored.todo_item_status with
        | some st => st
        | none => TStatus.pending)
    emoji := stored.emoji
    date := stored.date.map DateV.str
    time := stored.time
    removed :=
      match stored.removed with
      | some true => true
      | _ => false }

/-- `TodonnaModule.get` (src/app/api/ai-proxy/route.js:110-119): fetched
without a freshness bound; not-found-family errors become null, others
propagate. -/
def rget (c : Client) (id : String) (maxAge : Option Nat) :
    Except String (Option TodoItem) :=
  match c.getObject id maxAge with
  | Except.error e => if isNotFoundError e then Except.ok none else Except.error e
  | Except.ok none => Except.ok none
  | Except.ok (some stored) => Except.ok (some (fromStorage id stored))

/-- `TodonnaModule.add` (src/app/api/ai-proxy/route.js:94-97). -/
def radd (c : Client) (todo : TodoItem) : Except String Client :=
  match toStorage todo with
  | Except.error e => Except.error e
  | Except.ok payload => c.storeObject todo.id payload

/-- `TodonnaModule.update` (src/app/api/ai-proxy/route.js:99-104): reads the
current record via `this.get(id)` with NO freshness bound (the cache may
answer), throws when null, merges and stores at the key. -/
def rupdate (c : Client) (id : String) (p : PartialTodo) : Except String Client :=
  match rget c id none with
  | Except.error e => Except.error e
  | Except.ok none => Except.error "Todo not found"
  | Except.ok (some cur) =>
    match toStorage (mergedWithId cur p id) with
    | Except.error e => Except.error e
    | Except.ok payload => c.storeObject id payload

/-- One key's contribution to `TodonnaModule.getAll`: not-found-family fetch
errors and absent objects give null, any other fetch error rejects. -/
def rdecodeEntry (c : Client) (maxAge : Option Nat) (k : String) :
    Except String (Option TodoItem) :=
  match c.getObject k maxAge with
  | Except.error e => if isNotFoundError e then Except.ok none else Except.error e
  | Except.ok none => Except.ok none
  | Except.ok (some stored) => Except.ok (some (fromStorage k stored))

/-- The `Promise.all` fan-out over the listing's keys: any entry's rejection
rejects the whole aggregate. -/
def rmapEntries (c : Client) (maxAge : Option Nat) :
    List String → Except String (List (Option TodoItem))
  | [] => Except.ok []
  | k :: rest =>
    match rdecodeEntry c maxAge k with
    | Except.error e => Except.error e
    | Except.ok v =>
      match rmapEntries c maxAge rest with
      | Except.error e => Except.error e
      | Except.ok vs => Except.ok (v :: vs)

/-- `TodonnaModule.getAll` (src/app/api/ai-proxy/route.js:121-139): a
`Promise.all` fan-out — one entry's non-not-found fetch error rejects the
whole call; surviving nulls are filtered, then the `removed` filter applies. -/
def rgetAll (c : Client) (maxAge : Option Nat) (includeRemoved : Bool) :
    Except String (List TodoItem) :=
  match rmapEntries c maxAge (c.getListing maxAge) with
  | Except.error e => Except.error e
  | Except.ok entries =>
    Except.ok ((entries.filterMap id).filter (fun t => includeRemoved || !t.removed))

end TodonnaModule

namespace Coord

/-- The loaders the coordinator probes on the RemoteStorage instance; `none`
models an absent module (the optional-chaining guard skips it), otherwise the
loader's outcome.  Settings and AI-config payloads are opaque here. -/
structure LoaderEnv where
  itemsList : Option (Except String (List String))
  settingsL : Option (Except String String)
  todosL : Option (Except String (List TodoItem))
  stockL : Option (Except String (List String))
  aiL : Option (Except String (Option String))
deriving Repr

/-- The coordinator's reactive state (`useData`, src/unnamed/part_001):
per-scope snapshots, the loading and connection flags, the saving guard
(`isSavingRef`) and whether its clearing timer has been armed. -/
structure CoordState where
  itemsList : List String
  settings : String
  todos : List TodoItem
  stockItems : List String
  aiConfig : Option String
  isLoading : Bool
  isConnected : Bool
  saving : Bool
  timerArmed : Bool
deriving Repr

/-- Run one scope's loader inside the reload: absent module skipped, success
applies the setter, failure throws to the surrounding catch. -/
def applyLoader {α : Type} (ld : Option (Except String α))
    (set : α → CoordState → CoordState) (s : CoordState) : CoordState × Bool :=
  match ld with
  | none => (s, true)
  | some (Except.ok v) => (set v s, true)
  | some (Except.error _) => (s, false)

/-- `loadAllData` (src/unnamed/part_001:50-93): when connected, load items
list, settings, todos, stock and AI config in that order inside one
try/catch; the first loader failure aborts the remaining loads (the error is
only logged) and the `finally` clears `isLoading` on every path. -/
def loadAllData (env : LoaderEnv) (s : CoordState) : CoordState :=
  if s.isConnected = false then { s with isLoading := false }
  else
    let s0 := { s with isLoading := true }
    let r1 := applyLoader env.itemsList (fun v st => { st with itemsList := v }) s0
    if r1.2 then
      let r2 := applyLoader env.settingsL (fun v st => { st with settings := v }) r1.1
      if r2.2 then
        let r3 := applyLoader env.todosL (fun v st => { st with todos := v }) r2.1
        if r3.2 then
          let r4 := applyLoader env.stockL (fun v st => { st with stockItems := v }) r3.1
          if r4.2 then
            let r5 := applyLoader env.aiL (fun v st => { st with aiConfig := v }) r4.1
            { r5.1 with isLoading := false }
          else { r4.1 with isLoading := false }
        else { r3.1 with isLoading := false }
      else { r2.1 with isLoading := false }
    else { r1.1 with isLoading := false }

/-- Events driving the coordinator: a remote change notification, the start of
a locally initiated mutation (`isSavingRef.current = true`), the write's
completion (the `finally` arms the 100 ms clearing timer), and that timer
firing (`isSavingRef.current = false`). -/
inductive CoordEvent where
  | remoteChange
  | beginSave
  | finishSave
  | guardTimer
deriving DecidableEq, Repr

/-- The coordinator's step relation.  A change notification reaches the
handler only while connected (the subscription effect requires it); the
handler drops the event when the saving guard is set, otherwise it triggers a
full reload (src/unnamed/part_001:106-130, 138-162). -/
def coordStep (env : LoaderEnv) (s : CoordState) : CoordEvent → CoordState
  | CoordEvent.remoteChange =>
    if s.isConnected = false then s
    else if s.saving then s
    else loadAllData env s
  | CoordEvent.beginSave => { s with saving := true }
  | CoordEvent.finishSave => { s with timerArmed := true }
  | CoordEvent.guardTimer =>
    if s.timerArmed then { s with saving := false, timerArmed := false } else s

end Coord

/-! ### Store lemmas -/

theorem lookupStore_mem {st : Store} {k : String} {v : TodonnaItem}
    (h : lookupStore st k = some v) : (k, v) ∈ st := by
  induction st with
  | nil => simp [lookupStore] at h
  | cons p rest ih =>
    obtain ⟨k', v'⟩ := p
    by_cases hk : k' = k
    · subst hk
      simp [lookupStore] at h
      simp [h]
    · simp [lookupStore, hk] at h
      exact List.mem_cons_of_mem _ (ih h)

theorem mem_keys_of_lookup {st : Store} {k : String} {v : TodonnaItem}
    (h : lookupStore st k = some v) : k ∈ storeKeys st := by
  have := lookupStore_mem h
  exact List.mem_map.2 ⟨(k, v), this, rfl⟩

theorem lookup_of_mem_keys {st : Store} {k : String}
    (h : k ∈ storeKeys st) : ∃ v, lookupStore st k = some v := by
  induction st with
  | nil => simp [storeKeys] at h
  | cons p rest ih =>
    obtain ⟨k', v'⟩ := p
    by_cases hk : k' = k
    · subst hk
      exact ⟨v', by simp [lookupStore]⟩
    · simp only [storeKeys, List.map_cons, List.mem_cons] at h
      rcases h with h | h
      · exact absurd h.symm hk
      · obtain ⟨v, hv⟩ := ih h
        exact ⟨v, by simp [lookupStore, hk, hv]⟩

theorem storeKeys_cons (k : String) (v : TodonnaItem) (rest : Store) :
    storeKeys ((k, v) :: rest) = k :: storeKeys rest := rfl

theorem mem_keys_upsert {st : Store} {k x : String} {v : TodonnaItem} :
    x ∈ storeKeys (upsert st k v) ↔ x = k ∨ x ∈ storeKeys st := by
  induction st with
  | nil => simp [upsert, storeKeys]
  | cons p rest ih =>
    obtain ⟨k', v'⟩ := p
    by_cases hk : k' = k
    · subst hk
      rw [show upsert ((k', v') :: rest) k' v = (k', v) :: rest from by simp [upsert]]
      simp only [storeKeys_cons, List.mem_cons]
      tauto
    · rw [show upsert ((k', v') :: rest) k v = (k', v') :: upsert rest k v from by
          simp [upsert, hk]]
      simp only [storeKeys_cons, List.mem_cons, ih]
      tauto

theorem mem_keys_erase {st : Store} {k x : String} :
    x ∈ storeKeys (eraseKey st k) ↔ x ∈ storeKeys st ∧ x ≠ k := by
  induction st with
  | nil => simp [eraseKey, storeKeys]
  | cons p rest ih =>
    obtain ⟨k', v'⟩ := p
    by_cases hk : k' = k
    · subst hk
      rw [show eraseKey ((k', v') :: rest) k' = eraseKey rest k' from by simp [eraseKey]]
      simp only [storeKeys_cons, List.mem_cons, ih]
      constructor
      · exact fun h => ⟨Or.inr h.1, h.2⟩
      · rintro ⟨h | h, hne⟩
        · exact absurd h hne
        · exact ⟨h, hne⟩
    · rw [show eraseKey ((k', v') :: rest) k = (k', v') :: eraseKey rest k from by
          simp [eraseKey, hk]]
      simp only [storeKeys_cons, List.mem_cons, ih]
      constructor
      · rintro (h | h)
        · exact ⟨Or.inl h, by rintro rfl; exact hk h.symm⟩
        · exact ⟨Or.inr h.1, h.2⟩
      · rintro ⟨h | h, hne⟩
        · exact Or.inl h
        · exact Or.inr ⟨h, hne⟩

/-! ### `getAll` membership -/

theorem mem_getAllWith {c : Client} {now : Int} {maxAge : Option Nat}
    {incl : Bool} {t : TodoItem} :
    t ∈ Todonna.getAllWith c now maxAge incl ↔
      ((∃ k, k ∈ c.getListing maxAge ∧ Todonna.decodeEntry c now maxAge k = some t) ∧
        (incl || !t.removed) = true) := by
  simp [Todonna.getAllWith, List.mem_filter, List.mem_filterMap]

theorem decodeEntry_some {c : Client} {now : Int} {m : Option Nat} {k : String}
    {t : TodoItem} (h : Todonna.decodeEntry c now m k = some t) :
    ∃ item, lookupStore (readStore c m) k = some item ∧
      item.todo_item_text.isSome = true ∧ t = Todonna.fromTodonnaItem now k item ∧
      k ∉ c.getFails := by
  unfold Todonna.decodeEntry Client.getObject at h
  by_cases hg : k ∈ c.getFails
  · simp [hg] at h
  · simp only [if_neg hg] at h
    cases hl : lookupStore (readStore c m) k with
    | none => rw [hl] at h; simp at h
    | some item =>
      rw [hl] at h
      by_cases ht : item.todo_item_text.isSome
      · simp [ht] at h
        exact ⟨item, rfl, ht, h.symm, hg⟩
      · simp [ht] at h

theorem decodeEntry_eq_some {c : Client} {now : Int} {m : Option Nat} {k : String}
    {item : TodonnaItem} (hg : k ∉ c.getFails)
    (hl : lookupStore (readStore c m) k = some item)
    (ht : item.todo_item_text.isSome = true) :
    Todonna.decodeEntry c now m k = some (Todonna.fromTodonnaItem now k item) := by
  unfold Todonna.decodeEntry Client.getObject
  simp [hg, hl, ht]

theorem readStore_zero (c : Client) : readStore c (some 0) = c.fresh := by
  simp [readStore]

theorem readStore_none (c : Client) : readStore c none = c.cache := by
  simp [readStore]

/-! ### Codec facts -/

theorem instantOfString_iso (ms : Int) : instantOfString (isoOfInstant ms) = some ms := by
  cases ms with
  | ofNat n => simp [instantOfString, isoOfInstant, isoChars, parseChars]
  | negSucc n => simp [instantOfString, isoOfInstant, isoChars, parseChars]

theorem isoOfInstant_ne_empty (ms : Int) : isoOfInstant ms ≠ "" := by
  intro h
  have h2 : isoChars ms = [] := by
    have h3 := congrArg String.data h
    simpa [isoOfInstant] using h3
  cases ms <;> simp [isoChars] at h2

theorem fromTodonnaItem_removed (now : Int) (id : String) (item : TodonnaItem) :
    (Todonna.fromTodonnaItem now id item).removed = false := rfl

theorem status_done_or_pending (b : Bool) :
    some (if b then TStatus.done else TStatus.pending) = some TStatus.done ∨
    some (if b then TStatus.done else TStatus.pending) = some TStatus.pending := by
  cases b <;> simp

theorem fromTodonnaItem_status (now : Int) (id : String) (item : TodonnaItem) :
    (Todonna.fromTodonnaItem now id item).todo_item_status = some TStatus.done ∨
    (Todonna.fromTodonnaItem now id item).todo_item_status = some TStatus.pending :=
  status_done_or_pending _

/-- Concrete wire object whose status is `archived`. -/
def wArchived : TodonnaItem :=
  { todo_item_id := some "a", todo_item_text := some "t",
    todo_item_status := some TStatus.archived, emoji := none, date := none,
    time := none, completed := none, removed := none }

/-- A one-record client holding `wArchived` at key `"a"`. -/
def clientA : Client :=
  { fresh := [("a", wArchived)], cache := [("a", wArchived)],
    getFails := [], storeFails := [], removeFails := [] }

/-- A plain record with neither completion flag nor status. -/
def tPlain : TodoItem :=
  { id := "a", text := some "t", completed := none, todo_item_status := none,
    emoji := none, date := none, time := none, removed := false }

/-- The wire encoding of `tPlain`. -/
def wPlainEnc : TodonnaItem :=
  { todo_item_id := some "a", todo_item_text := some "t",
    todo_item_status := none, emoji := none, date := none, time := none,
    completed := none, removed := none }

/-- C9: every record produced by the main module's decoder (hence by `get` and
`getAll`) has `removed = false` whatever the wire object holds, and its status
is always `done` or `pending` — a wire status of `archived` decodes to
`pending`; and `toTodonnaItem` never writes a `removed` field to the wire, so
a `removed` flag merged in by `update` is not persisted by this codec. -/
theorem codec_removed_status_invariants :
    (∀ (now : Int) (id : String) (item : TodonnaItem),
        (Todonna.fromTodonnaItem now id item).removed = false) ∧
    (∀ (now : Int) (id : String) (item : TodonnaItem),
        (Todonna.fromTodonnaItem now id item).todo_item_status = some TStatus.done ∨
        (Todonna.fromTodonnaItem now id item).todo_item_status = some TStatus.pending) ∧
    (∀ (now : Int) (id : String) (item : TodonnaItem),
        item.todo_item_status = some TStatus.archived →
        (Todonna.fromTodonnaItem now id item).todo_item_status = some TStatus.pending) ∧
    (∀ (todo : TodoItem) (w : TodonnaItem),
        Todonna.toTodonnaItem todo = Except.ok w → w.removed = none) ∧
    (∀ (c : Client) (now : Int) (id : String) (m : Option Nat) (t : TodoItem),
        Todonna.get c now id m = Except.ok (some t) →
        t.removed = false ∧
          (t.todo_item_status = some TStatus.done ∨
            t.todo_item_status = some TStatus.pending)) ∧
    (∀ (c : Client) (now : Int) (m : Option Nat) (incl : Bool) (t : TodoItem),
        t ∈ Todonna.getAllWith c now m incl →
        t.removed = false ∧
          (t.todo_item_status = some TStatus.done ∨
            t.todo_item_status = some TStatus.pending)) := by
  refine ⟨fun now id item => rfl, fun now id item => fromTodonnaItem_status now id item,
    ?_, ?_, ?_, ?_⟩
  · intro now id item h
    simp [Todonna.fromTodonnaItem, h]
  · intro todo w h
    unfold Todonna.toTodonnaItem at h
    cases hd : todo.date with
    | none =>
      rw [hd] at h
      simp at h
      rw [← h]
    | some dv =>
      cases dv with
      | inst ms =>
        rw [hd] at h
        simp at h
        rw [← h]
      | invalid =>
        rw [hd] at h
        simp at h
      | str s =>
        rw [hd] at h
        simp at h
        rw [← h]
  · intro c now id m t h
    unfold Todonna.get Client.getObject at h
    by_cases hg : id ∈ c.getFails
    · simp [hg] at h
    · simp only [if_neg hg] at h
      cases hl : lookupStore (readStore c m) id with
      | none => rw [hl] at h; simp at h
      | some item =>
        rw [hl] at h
        by_cases ht : item.todo_item_text.isSome
        · simp [ht] at h
          rw [← h]
          exact ⟨rfl, fromTodonnaItem_status now id item⟩
        · simp [ht] at h
  · intro c now m incl t h
    obtain ⟨⟨k, _, hdec⟩, _⟩ := mem_getAllWith.1 h
    obtain ⟨item, _, _, rfl, _⟩ := decodeEntry_some hdec
    exact ⟨rfl, fromTodonnaItem_status now k item⟩

/-- A record whose status is `archived` with no completion flag: its
normalized status is still `archived`, but the codec does not round-trip it. -/
def rArch : TodoItem :=
  { id := "a", text := some "t", completed := none,
    todo_item_status := some TStatus.archived, emoji := none,
    date := some (DateV.inst 0), time := none, removed := false }

/-- The wire encoding of `rArch`. -/
def wArchEnc : TodonnaItem :=
  { todo_item_id := some "a", todo_item_text := some "t",
    todo_item_status := some TStatus.archived, emoji := none,
    date := some (isoOfInstant 0), time := none, completed := none,
    removed := none }

/-- C2 counterexample: decoding the encoding of `rArch` (with its own id as
key) yields status `pending`, while `rArch`'s status — unchanged by
completion-flag normalization, since it has no completion flag — is
`archived`.  The claimed round-trip of `status` fails at this record. -/
theorem roundtrip_status_cex :
    rArch.completed = none ∧
    rArch.todo_item_status = some TStatus.archived ∧
    Todonna.toTodonnaItem rArch = Except.ok wArchEnc ∧
    (Todonna.fromTodonnaItem 0 rArch.id wArchEnc).todo_item_status =
      some TStatus.pending ∧
    some TStatus.pending ≠ some TStatus.archived :=
  ⟨rfl, rfl, rfl, rfl, by decide⟩

/-- C2 (amended): the round-trip holds for records whose normalized status is
not `archived` (a wire `archived` decodes to `pending`), whose `emoji` and
`time` are not empty strings (empty optionals are omitted from the wire and
decode as absent), and whose `date` is present as a valid `Date` (an absent
date decodes to the decode-time instant instead): `text`, normalized
`status`, `emoji`, `date` (to instant precision) and `time` all survive. -/
theorem roundtrip_amended (r : TodoItem) (ms : Int) (now : Int)
    (hst : ¬(r.completed = none ∧ r.todo_item_status = some TStatus.archived))
    (hem : r.emoji ≠ some "") (htm : r.time ≠ some "")
    (hd : r.date = some (DateV.inst ms)) :
    ∃ w, Todonna.toTodonnaItem r = Except.ok w ∧
      (Todonna.fromTodonnaItem now r.id w).text = r.text ∧
      (Todonna.fromTodonnaItem now r.id w).todo_item_status = some (normStatus r) ∧
      (Todonna.fromTodonnaItem now r.id w).emoji = r.emoji ∧
      (Todonna.fromTodonnaItem now r.id w).date = r.date ∧
      (Todonna.fromTodonnaItem now r.id w).time = r.time := by
  refine ⟨{ todo_item_id := some r.id
            todo_item_text := r.text
            todo_item_status :=
              match r.completed with
              | some b => some (if b then TStatus.done else TStatus.pending)
              | none => r.todo_item_status
            emoji :=
              match r.emoji with
              | some e => if e = "" then none else some e
              | none => none
            date := some (isoOfInstant ms)
            time :=
              match r.time with
              | some t => if t = "" then none else some t
              | none => none
            completed := none
            removed := none }, ?_, ?_, ?_, ?_, ?_, ?_⟩
  · unfold Todonna.toTodonnaItem
    rw [hd]
  · rfl
  · unfold Todonna.fromTodonnaItem normStatus
    rcases hc : r.completed with _ | b
    · rcases hs : r.todo_item_status with _ | st
      · rfl
      · cases st with
        | pending => rfl
        | done => rfl
        | archived => exact absurd ⟨hc, hs⟩ hst
    · cases b <;> rfl
  · show (match r.emoji with
      | some e => if e = "" then none else some e
      | none => none) = r.emoji
    rcases he : r.emoji with _ | e
    · rfl
    · show (if e = "" then (none : Option String) else some e) = some e
      rw [if_neg (by rintro rfl; exact hem he)]
  · show some (if isoOfInstant ms = "" then DateV.inst now
      else match instantOfString (isoOfInstant ms) with
        | some m => DateV.inst m
        | none => DateV.invalid) = r.date
    rw [if_neg (isoOfInstant_ne_empty ms), instantOfString_iso, hd]
  · show (match r.time with
      | some t => if t = "" then none else some t
      | none => none) = r.time
    rcases ht : r.time with _ | t0
    · rfl
    · show (if t0 = "" then (none : Option String) else some t0) = some t0
      rw [if_neg (by rintro rfl; exact htm ht)]

/-- A well-behaved record for the C2 witness. -/
def rGood : TodoItem :=
  { id := "b", text := some "milk", completed := some true,
    todo_item_status := none, emoji := some "e", date := some (DateV.inst 2),
    time := some "15:00", removed := false }

/-- Witness for the amended C2 at `rGood`. -/
theorem roundtrip_amended_witness :
    ∃ w, Todonna.toTodonnaItem rGood = Except.ok w ∧
      (Todonna.fromTodonnaItem 7 rGood.id w).text = rGood.text ∧
      (Todonna.fromTodonnaItem 7 rGood.id w).todo_item_status =
        some (normStatus rGood) ∧
      (Todonna.fromTodonnaItem 7 rGood.id w).emoji = rGood.emoji ∧
      (Todonna.fromTodonnaItem 7 rGood.id w).date = rGood.date ∧
      (Todonna.fromTodonnaItem 7 rGood.id w).time = rGood.time :=
  roundtrip_amended rGood 2 7 (by simp [rGood]) (by simp [rGood])
    (by simp [rGood]) rfl

/-- A one-record client holding the plain wire object at key `"a"`. -/
def clientP : Client :=
  { fresh := [("a", wPlainEnc)], cache := [("a", wPlainEnc)],
    getFails := [], storeFails := [], removeFails := [] }

/-- The soft-delete update object `{ removed: true }`. -/
def pRem : PartialTodo :=
  { text := none, completed := none, todo_item_status := none, emoji := none,
    date := none, time := none, removed := some true }

/-- C5 (code bug): the module's own documentation directs soft-deletion
through `update(id, { removed: true })` and `getAll` is documented to exclude
such records by default, but `toTodonnaItem` never writes the `removed` flag
and `fromTodonnaItem` decodes every record with `removed = false` — so after
the soft delete the record is still in the default listing, decoded as not
removed. -/
theorem softdelete_not_persisted :
    pRem.removed = some true ∧
    (Todonna.update clientP 0 "a" pRem).map
        (fun c2 => (Todonna.getAllWith c2 0 (some Todonna.DAY_MS) false).map
          (fun t => (t.id, t.removed)))
      = Except.ok [("a", false)] :=
  ⟨rfl, rfl⟩

/-- C7: while the saving guard is set, a change notification is dropped
(state unchanged); once the write has completed and the guard's delay has
elapsed, the same notification triggers the full reload, repopulating every
tracked scope. -/
theorem saving_guard_spec (env : Coord.LoaderEnv) (s : Coord.CoordState)
    (ts : List TodoItem) (ss : List String) (ac : Option String)
    (hconn : s.isConnected = true)
    (h1 : env.itemsList = none ∨ ∃ v, env.itemsList = some (Except.ok v))
    (h2 : env.settingsL = none ∨ ∃ v, env.settingsL = some (Except.ok v))
    (h3 : env.todosL = some (Except.ok ts))
    (h4 : env.stockL = some (Except.ok ss))
    (h5 : env.aiL = some (Except.ok ac)) :
    (s.saving = true →
        Coord.coordStep env s Coord.CoordEvent.remoteChange = s) ∧
    ((Coord.coordStep env (Coord.coordStep env s Coord.CoordEvent.finishSave)
        Coord.CoordEvent.guardTimer).saving = false ∧
      (Coord.coordStep env
          (Coord.coordStep env (Coord.coordStep env s Coord.CoordEvent.finishSave)
            Coord.CoordEvent.guardTimer)
          Coord.CoordEvent.remoteChange).todos = ts ∧
      (Coord.coordStep env
          (Coord.coordStep env (Coord.coordStep env s Coord.CoordEvent.finishSave)
            Coord.CoordEvent.guardTimer)
          Coord.CoordEvent.remoteChange).stockItems = ss ∧
      (Coord.coordStep env
          (Coord.coordStep env (Coord.coordStep env s Coord.CoordEvent.finishSave)
            Coord.CoordEvent.guardTimer)
          Coord.CoordEvent.remoteChange).aiConfig = ac) := by
  constructor
  · intro hsave
    simp [Coord.coordStep, hconn, hsave]
  · rcases h1 with h1 | ⟨v1, h1⟩ <;> rcases h2 with h2 | ⟨v2, h2⟩ <;>
      simp [Coord.coordStep, Coord.loadAllData, Coord.applyLoader,
        hconn, h1, h2, h3, h4, h5]

/-- Environment and state for the C7 witness. -/
def envW : Coord.LoaderEnv :=
  { itemsList := none, settingsL := some (Except.ok "cfg"),
    todosL := some (Except.ok [tPlain]), stockL := some (Except.ok ["milk"]),
    aiL := some (Except.ok (some "wallet")) }

/-- A connected state with the saving guard set. -/
def sW : Coord.CoordState :=
  { itemsList := [], settings := "", todos := [], stockItems := [],
    aiConfig := none, isLoading := false, isConnected := true, saving := true,
    timerArmed := false }

/-- Witness for C7 at `envW`, `sW`. -/
theorem saving_guard_spec_witness :
    (Coord.coordStep envW sW Coord.CoordEvent.remoteChange = sW) ∧
    (Coord.coordStep envW
        (Coord.coordStep envW (Coord.coordStep envW sW Coord.CoordEvent.finishSave)
          Coord.CoordEvent.guardTimer)
        Coord.CoordEvent.remoteChange).todos = [tPlain] := by
  have h := saving_guard_spec envW sW [tPlain] ["milk"] (some "wallet") rfl
    (Or.inl rfl) (Or.inr ⟨"cfg", rfl⟩) rfl rfl rfl
  exact ⟨h.1 rfl, h.2.2.1⟩

/-- Environment whose todos loader fails while the stock and AI loaders would
succeed. -/
def envFail : Coord.LoaderEnv :=
  { itemsList := none, settingsL := none,
    todosL := some (Except.error "todos load failed"),
    stockL := some (Except.ok ["milk"]), aiL := some (Except.ok (some "cfg")) }

/-- A connected state with empty scope snapshots. -/
def sEmpty : Coord.CoordState :=
  { itemsList := [], settings := "", todos := [], stockItems := [],
    aiConfig := none, isLoading := false, isConnected := true, saving := false,
    timerArmed := false }

/-- C8 counterexample: during a reload in which the todos loader fails, the
stock and AI-config loaders — although they would succeed — are never run:
the whole-reload `try/catch` aborts the remaining scopes. -/
theorem loadAll_independence_cex :
    envFail.stockL = some (Except.ok ["milk"]) ∧
    envFail.aiL = some (Except.ok (some "cfg")) ∧
    (Coord.loadAllData envFail sEmpty).stockItems = [] ∧
    (Coord.loadAllData envFail sEmpty).aiConfig = none ∧
    ([] : List String) ≠ ["milk"] :=
  ⟨rfl, rfl, rfl, rfl, by decide⟩

/-- C8 (amended): scope loader failures are caught at the whole-reload level:
when the todos loader fails (earlier loaders absent or succeeding), the
remaining scopes (stock, AI config) keep their previous values for that
reload, todos is left unchanged, and the reload still completes with
`isLoading` cleared — the coordinator itself never crashes. -/
theorem loadAll_whole_reload_catch (env : Coord.LoaderEnv) (s : Coord.CoordState)
    (e : String) (hconn : s.isConnected = true)
    (h1 : env.itemsList = none ∨ ∃ v, env.itemsList = some (Except.ok v))
    (h2 : env.settingsL = none ∨ ∃ v, env.settingsL = some (Except.ok v))
    (he : env.todosL = some (Except.error e)) :
    (Coord.loadAllData env s).todos = s.todos ∧
    (Coord.loadAllData env s).stockItems = s.stockItems ∧
    (Coord.loadAllData env s).aiConfig = s.aiConfig ∧
    (Coord.loadAllData env s).isLoading = false := by
  rcases h1 with h1 | ⟨v1, h1⟩ <;> rcases h2 with h2 | ⟨v2, h2⟩ <;>
    simp [Coord.loadAllData, Coord.applyLoader, hconn, h1, h2, he]

/-- Witness for the amended C8 at `envFail`, `sEmpty`. -/
theorem loadAll_whole_reload_catch_witness :
    (Coord.loadAllData envFail sEmpty).todos = sEmpty.todos ∧
    (Coord.loadAllData envFail sEmpty).stockItems = sEmpty.stockItems ∧
    (Coord.loadAllData envFail sEmpty).aiConfig = sEmpty.aiConfig ∧
    (Coord.loadAllData envFail sEmpty).isLoading = false :=
  loadAll_whole_reload_catch envFail sEmpty "todos load failed" rfl
    (Or.inl rfl) (Or.inl rfl) rfl

/-- C10: a wire object with no date field decodes with `date` equal to the
decode-time instant (`new Date()` at the moment of decoding), so a record
stored without a date is returned by `getByDate(d)` exactly when `d` falls on
the same local calendar day as the call that decoded it. -/
theorem dateless_decode_getByDate (c : Client) (now tz d : Int) (m : Option Nat)
    (incl : Bool) (k : String) (item : TodonnaItem)
    (hk : lookupStore (readStore c m) k = some item)
    (hgf : k ∉ c.getFails)
    (htext : item.todo_item_text.isSome = true)
    (hdate : item.date = none) :
    (Todonna.fromTodonnaItem now k item).date = some (DateV.inst now) ∧
    (Todonna.fromTodonnaItem now k item ∈ Todonna.getByDate c now tz d m incl ↔
      localDay tz now = localDay tz d) := by
  have hdt : (Todonna.fromTodonnaItem now k item).date = some (DateV.inst now) := by
    simp [Todonna.fromTodonnaItem, hdate]
  refine ⟨hdt, ?_⟩
  have hmem : Todonna.fromTodonnaItem now k item ∈ Todonna.getAllWith c now m incl := by
    refine mem_getAllWith.2 ⟨⟨k, ?_, decodeEntry_eq_some hgf hk htext⟩, ?_⟩
    · exact mem_keys_of_lookup hk
    · simp [fromTodonnaItem_removed]
  unfold Todonna.getByDate
  rw [List.mem_filter]
  constructor
  · rintro ⟨_, hp⟩
    simp only [hdt, Todonna.dateInstant] at hp
    simpa using hp
  · intro heq
    refine ⟨hmem, ?_⟩
    simp [hdt, Todonna.dateInstant, heq]

/-- Witness for C10: `clientP`'s record has no stored date; decoding at
instant 5 and querying the same day finds it. -/
theorem dateless_decode_getByDate_witness :
    (Todonna.fromTodonnaItem 5 "a" wPlainEnc).date = some (DateV.inst 5) ∧
    (Todonna.fromTodonnaItem 5 "a" wPlainEnc ∈
        Todonna.getByDate clientP 5 0 5 (some Todonna.DAY_MS) false ↔
      localDay 0 5 = localDay 0 5) :=
  dateless_decode_getByDate clientP 5 0 5 (some Todonna.DAY_MS) false "a"
    wPlainEnc rfl (by decide) rfl rfl

/-- Stale pair of wire objects for the C3 counterexample: the fresh store
holds `"new"` text at key `"a"`, the cache holds `"old"`. -/
def wOldT : TodonnaItem :=
  { todo_item_id := some "a", todo_item_text := some "old",
    todo_item_status := some TStatus.pending, emoji := none, date := none,
    time := none, completed := none, removed := none }

/-- Fresh counterpart of `wOldT`. -/
def wNewT : TodonnaItem :=
  { todo_item_id := some "a", todo_item_text := some "new",
    todo_item_status := some TStatus.pending, emoji := none, date := none,
    time := none, completed := none, removed := none }

/-- A client whose cache is stale with respect to its fresh store. -/
def clientStale : Client :=
  { fresh := [("a", wNewT)], cache := [("a", wOldT)],
    getFails := [], storeFails := [], removeFails := [] }

/-- The empty partial update `{}`. -/
def pEmpty : PartialTodo :=
  { text := none, completed := none, todo_item_status := none, emoji := none,
    date := none, time := none, removed := none }

/-- C3 counterexample: the lightweight module's `update` (one of the claim's
cited implementations) reads via `this.get(id)` with no freshness bound, so
with a stale cache it merges onto the cached record — the stored result keeps
the cached `"old"` text, not the `"new"` text a `maxAge = 0` read would have
fetched.  The claim's "bypasses the cache" property fails there. -/
theorem update_cache_read_cex :
    lookupStore clientStale.fresh "a" = some wNewT ∧
    wNewT.todo_item_text = some "new" ∧
    (TodonnaModule.rupdate clientStale "a" pEmpty).map
        (fun c2 => (lookupStore c2.fresh "a").map
          (fun w => w.todo_item_text))
      = Except.ok (some (some "old")) ∧
    some "old" ≠ some "new" :=
  ⟨rfl, rfl, rfl, by decide⟩

/-- C3 (amended): the main module's `update` behaves exactly as claimed — it
reads at `maxAge = 0` (its outcome is independent of the cache), fails with
the not-found error and leaves the scope unchanged when no record exists in
the fresh store, and otherwise stores, at the same key, the re-encoded
shallow merge of the partial onto the fetched record with `id` never
overwritten.  The lightweight module's `update` shares the merge, not-found
and no-write behaviour but reads with no freshness bound, so it consults the
cache rather than bypassing it. -/
theorem update_not_found (c : Client) (now : Int) (id : String) (p : PartialTodo)
    (hgf : id ∉ c.getFails) (hnone : lookupStore c.fresh id = none) :
    Todonna.update c now id p =
      Except.error ("Todo with id " ++ id ++ " not found") := by
  simp [Todonna.update, Client.getObject, readStore_zero, hgf, hnone]

theorem update_found (c : Client) (now : Int) (id : String) (p : PartialTodo)
    (item : TodonnaItem) (hgf : id ∉ c.getFails)
    (hsome : lookupStore c.fresh id = some item) :
    Todonna.update c now id p =
      match Todonna.toTodonnaItem
          (mergedWithId (Todonna.fromTodonnaItem now id item) p id) with
      | Except.error e => Except.error e
      | Except.ok w => c.storeObject id w := by
  simp [Todonna.update, Client.getObject, readStore_zero, hgf, hsome]

theorem rupdate_not_found (c : Client) (id : String) (p : PartialTodo)
    (hgf : id ∉ c.getFails) (hnone : lookupStore c.cache id = none) :
    TodonnaModule.rupdate c id p = Except.error "Todo not found" := by
  simp [TodonnaModule.rupdate, TodonnaModule.rget, Client.getObject,
    readStore_none, hgf, hnone]

theorem rupdate_found (c : Client) (id : String) (p : PartialTodo)
    (stored : TodonnaItem) (hgf : id ∉ c.getFails)
    (hsome : lookupStore c.cache id = some stored) :
    TodonnaModule.rupdate c id p =
      match TodonnaModule.toStorage
          (mergedWithId (TodonnaModule.fromStorage id stored) p id) with
      | Except.error e => Except.error e
      | Except.ok w => c.storeObject id w := by
  simp [TodonnaModule.rupdate, TodonnaModule.rget, Client.getObject,
    readStore_none, hgf, hsome]

theorem update_spec_amended (c : Client) (now : Int) (id : String)
    (p : PartialTodo) (hgf : id ∉ c.getFails) :
    (lookupStore c.fresh id = none →
        Todonna.update c now id p =
          Except.error ("Todo with id " ++ id ++ " not found") ∧
        Todonna.updateCaught c now id p = c) ∧
    (∀ item, lookupStore c.fresh id = some item →
        Todonna.update c now id p =
          (match Todonna.toTodonnaItem
              (mergedWithId (Todonna.fromTodonnaItem now id item) p id) with
            | Except.error e => Except.error e
            | Except.ok w => c.storeObject id w) ∧
        (mergedWithId (Todonna.fromTodonnaItem now id item) p id).id = id) ∧
    (∀ cache2, (Todonna.update { c with cache := cache2 } now id p).map Client.fresh =
        (Todonna.update c now id p).map Client.fresh) ∧
    (lookupStore c.cache id = none →
        TodonnaModule.rupdate c id p = Except.error "Todo not found") ∧
    (∀ fresh2, (TodonnaModule.rupdate { c with fresh := fresh2 } id p).map Client.cache =
        (TodonnaModule.rupdate c id p).map Client.cache) := by
  refine ⟨?_, ?_, ?_, ?_, ?_⟩
  · intro hnone
    refine ⟨update_not_found c now id p hgf hnone, ?_⟩
    unfold Todonna.updateCaught
    rw [update_not_found c now id p hgf hnone]
  · intro item hsome
    exact ⟨update_found c now id p item hgf hsome, rfl⟩
  · intro cache2
    by_cases hgf2 : id ∈ c.getFails
    · simp [Todonna.update, Client.getObject, hgf2]
    · cases hl : lookupStore c.fresh id with
      | none =>
        rw [update_not_found c now id p hgf2 hl,
          update_not_found { c with cache := cache2 } now id p hgf2 hl]
      | some item =>
        rw [update_found c now id p item hgf2 hl,
          update_found { c with cache := cache2 } now id p item hgf2 hl]
        cases hw : Todonna.toTodonnaItem
            (mergedWithId (Todonna.fromTodonnaItem now id item) p id) with
        | error e => rfl
        | ok w =>
          simp only [Client.storeObject]
          by_cases ht : w.todo_item_text = none
          · simp [ht]
          · by_cases hs : id ∈ c.storeFails
            · simp [Option.isNone_iff_eq_none, ht, hs]
            · simp [Option.isNone_iff_eq_none, ht, hs, Except.map]
  · exact fun hnone => rupdate_not_found c id p hgf hnone
  · intro fresh2
    by_cases hgf2 : id ∈ c.getFails
    · simp [TodonnaModule.rupdate, TodonnaModule.rget, Client.getObject, hgf2,
        TodonnaModule.isNotFoundError]
    · cases hl : lookupStore c.cache id with
      | none =>
        rw [rupdate_not_found c id p hgf2 hl,
          rupdate_not_found { c with fresh := fresh2 } id p hgf2 hl]
      | some stored =>
        rw [rupdate_found c id p stored hgf2 hl,
          rupdate_found { c with fresh := fresh2 } id p stored hgf2 hl]
        cases hw : TodonnaModule.toStorage
            (mergedWithId (TodonnaModule.fromStorage id stored) p id) with
        | error e => rfl
        | ok w =>
          simp only [Client.storeObject]
          by_cases ht : w.todo_item_text = none
          · simp [ht]
          · by_cases hs : id ∈ c.storeFails
            · simp [Option.isNone_iff_eq_none, ht, hs]
            · simp [Option.isNone_iff_eq_none, ht, hs, Except.map]

/-- A client with nothing at key `"a"` in either store. -/
def clientEmptyA : Client :=
  { fresh := [], cache := [], getFails := [], storeFails := [], removeFails := [] }

/-- Witness for the amended C3 at concrete inputs. -/
theorem update_spec_amended_witness :
    (Todonna.update clientEmptyA 0 "a" pRem =
        Except.error ("Todo with id " ++ "a" ++ " not found") ∧
      Todonna.updateCaught clientEmptyA 0 "a" pRem = clientEmptyA) ∧
    (TodonnaModule.rupdate clientStale "a" pEmpty).map Client.cache =
      (TodonnaModule.rupdate clientStale "a" pEmpty).map Client.cache := by
  have h1 := update_spec_amended clientEmptyA 0 "a" pRem (by decide)
  have h2 := update_spec_amended clientStale 0 "a" pEmpty (by decide)
  exact ⟨h1.1 rfl, h2.2.2.2.2 clientStale.fresh⟩

/-- Run a prefix of a batch, assuming every step succeeds: `true` iff each
step in sequence returns `ok`. -/
def allOk {α : Type} (step : Client → α → Except String Client) :
    Client → List α → Bool
  | _, [] => true
  | c, a :: r =>
    match step c a with
    | Except.ok c2 => allOk step c2 r
    | Except.error _ => false

/-- The client state after running a list of steps, stopping at a failure. -/
def foldOk {α : Type} (step : Client → α → Except String Client) :
    Client → List α → Client
  | c, [] => c
  | c, a :: r =>
    match step c a with
    | Except.ok c2 => foldOk step c2 r
    | Except.error _ => c

theorem batchRun_bound {α : Type} (step : Client → α → Except String Client)
    (getId : α → String) (stop : Bool) :
    ∀ (items : List α) (c : Client),
      (Todonna.batchRun step getId stop c items).2.succeeded +
        (Todonna.batchRun step getId stop c items).2.failed ≤ items.length := by
  intro items
  induction items with
  | nil => intro c; simp [Todonna.batchRun]
  | cons a rest ih =>
    intro c
    cases hs : step c a with
    | ok c2 =>
      have := ih c2
      simp only [Todonna.batchRun, hs, List.length_cons]
      omega
    | error e =>
      cases stop with
      | true => simp [Todonna.batchRun, hs]
      | false =>
        have := ih c
        simp [Todonna.batchRun, hs, List.length_cons]
        omega

theorem batchRun_stop_first_failure {α : Type}
    (step : Client → α → Except String Client) (getId : α → String) :
    ∀ (pre : List α) (c : Client) (x : α) (post : List α) (e : String),
      allOk step c pre = true →
      step (foldOk step c pre) x = Except.error e →
      (Todonna.batchRun step getId true c (pre ++ x :: post)).2 =
        ⟨pre.length, 1, [(getId x, e)]⟩ := by
  intro pre
  induction pre with
  | nil =>
    intro c x post e hok hx
    simp only [foldOk] at hx
    simp [Todonna.batchRun, hx]
  | cons a rest ih =>
    intro c x post e hok hx
    cases hs : step c a with
    | error e2 => simp [allOk, hs] at hok
    | ok c2 =>
      have hok2 : allOk step c2 rest = true := by simpa [allOk, hs] using hok
      have hx2 : step (foldOk step c2 rest) x = Except.error e := by
        simpa [foldOk, hs] using hx
      simp only [List.cons_append, Todonna.batchRun, hs, List.append_eq]
      rw [ih c2 x post e hok2 hx2]
      simp

/-- C4: for any `stopOnError = true` batch in which the first `k-1` items
succeed and the `k`-th fails, the result has `succeeded = k-1`, `failed = 1`
(hence `succeeded + failed = k`), and the error list holds exactly the `k`-th
item's id; items after the `k`-th contribute to neither count.  In every
case — for `batchAdd`, `batchUpdate` and `batchRemove`, all instances of the
shared loop `batchRun` — `succeeded + failed ≤ inputCount`. -/
theorem batch_stopOnError_spec :
    (∀ (α : Type) (step : Client → α → Except String Client) (getId : α → String)
        (stop : Bool) (c : Client) (items : List α),
        (Todonna.batchRun step getId stop c items).2.succeeded +
          (Todonna.batchRun step getId stop c items).2.failed ≤ items.length) ∧
    (∀ (α : Type) (step : Client → α → Except String Client) (getId : α → String)
        (c : Client) (pre : List α) (x : α) (post : List α) (e : String),
        allOk step c pre = true →
        step (foldOk step c pre) x = Except.error e →
        (Todonna.batchRun step getId true c (pre ++ x :: post)).2.succeeded = pre.length ∧
        (Todonna.batchRun step getId true c (pre ++ x :: post)).2.failed = 1 ∧
        (Todonna.batchRun step getId true c (pre ++ x :: post)).2.errors = [(getId x, e)] ∧
        (Todonna.batchRun step getId true c (pre ++ x :: post)).2.succeeded +
          (Todonna.batchRun step getId true c (pre ++ x :: post)).2.failed =
            pre.length + 1) ∧
    (∀ (c : Client) (todos : List TodoItem) (stop : Bool),
        (Todonna.batchAdd c todos stop).2.succeeded +
          (Todonna.batchAdd c todos stop).2.failed ≤ todos.length) ∧
    (∀ (c : Client) (now : Int) (items : List (String × PartialTodo)) (stop : Bool),
        (Todonna.batchUpdate c now items stop).2.succeeded +
          (Todonna.batchUpdate c now items stop).2.failed ≤ items.length) ∧
    (∀ (c : Client) (ids : List String) (stop : Bool),
        (Todonna.batchRemove c ids stop).2.succeeded +
          (Todonna.batchRemove c ids stop).2.failed ≤ ids.length) := by
  refine ⟨?_, ?_, ?_, ?_, ?_⟩
  · intro α step getId stop c items
    exact batchRun_bound step getId stop items c
  · intro α step getId c pre x post e hok hx
    rw [batchRun_stop_first_failure step getId pre c x post e hok hx]
    exact ⟨rfl, rfl, rfl, rfl⟩
  · intro c todos stop
    exact batchRun_bound _ _ stop todos c
  · intro c now items stop
    exact batchRun_bound _ _ stop items c
  · intro c ids stop
    exact batchRun_bound _ _ stop ids c

/-- Batch items for the C4 witness. -/
def tA : TodoItem :=
  { id := "x1", text := some "a", completed := none, todo_item_status := none,
    emoji := none, date := none, time := none, removed := false }

/-- The item whose store the backend rejects. -/
def tB : TodoItem :=
  { id := "b", text := some "b", completed := none, todo_item_status := none,
    emoji := none, date := none, time := none, removed := false }

/-- An item after the failing one, never attempted under `stopOnError`. -/
def tC : TodoItem :=
  { id := "x3", text := some "c", completed := none, todo_item_status := none,
    emoji := none, date := none, time := none, removed := false }

/-- A client that rejects stores at key `"b"`. -/
def clientB : Client :=
  { fresh := [], cache := [], getFails := [], storeFails := ["b"],
    removeFails := [] }

/-- Witness for C4: `batchAdd` of `[tA, tB, tC]` with `stopOnError` stops at
`tB`: one success, one failure, exactly `tB`'s id in the error list. -/
theorem batch_stopOnError_spec_witness :
    (Todonna.batchAdd clientB [tA, tB, tC] true).2.succeeded = 1 ∧
    (Todonna.batchAdd clientB [tA, tB, tC] true).2.failed = 1 ∧
    (Todonna.batchAdd clientB [tA, tB, tC] true).2.errors = [("b", "store failed")] := by
  have h := batch_stopOnError_spec
  have h2 := h.2.1 TodoItem (fun c t => Todonna.add c t) (fun t => t.id) clientB
    [tA] tB [tC] "store failed" rfl rfl
  exact ⟨h2.1, h2.2.1, h2.2.2.1⟩

/-- A wire object missing the required `todo_item_text`. -/
def wNoText : TodonnaItem :=
  { todo_item_id := none, todo_item_text := none,
    todo_item_status := some TStatus.pending, emoji := none, date := none,
    time := none, completed := none, removed := none }

/-- A client with one good entry, one entry missing its text, and one entry
whose fetch the backend rejects. -/
def clientMix : Client :=
  { fresh := [("a", wPlainEnc), ("bad", wNoText), ("failk", wPlainEnc)],
    cache := [("a", wPlainEnc), ("bad", wNoText), ("failk", wPlainEnc)],
    getFails := ["failk"], storeFails := [], removeFails := [] }

/-- C6 counterexample: key `"failk"` holds an object whose fetch fails; the
claim says single-record `get` of such a key returns null like an absent key,
but the code propagates the fetch error instead. -/
theorem get_fetchfail_cex :
    ("failk" ∈ clientMix.getFails) ∧
    lookupStore clientMix.cache "failk" = some wPlainEnc ∧
    Todonna.get clientMix 0 "failk" (some Todonna.DAY_MS) =
      Except.error "fetch failed" ∧
    (Except.error "fetch failed" : Except String (Option TodoItem)) ≠
      Except.ok none :=
  ⟨by decide, rfl, rfl, by simp⟩

theorem rmapEntries_error (c : Client) (m : Option Nat) :
    ∀ (keys : List String) (k : String), k ∈ keys → k ∈ c.getFails →
      ∃ e, TodonnaModule.rmapEntries c m keys = Except.error e := by
  intro keys
  induction keys with
  | nil => intro k hk; simp at hk
  | cons a rest ih =>
    intro k hk hgf
    rcases List.mem_cons.1 hk with rfl | hk2
    · have hfail : TodonnaModule.rdecodeEntry c m k = Except.error "fetch failed" := by
        unfold TodonnaModule.rdecodeEntry Client.getObject
        rw [if_pos hgf]
        rfl
      exact ⟨"fetch failed", by simp [TodonnaModule.rmapEntries, hfail]⟩
    · cases hd : TodonnaModule.rdecodeEntry c m a with
      | error e => exact ⟨e, by simp [TodonnaModule.rmapEntries, hd]⟩
      | ok v =>
        obtain ⟨e, he⟩ := ih k hk2 hgf
        exact ⟨e, by simp [TodonnaModule.rmapEntries, hd, he]⟩

/-- C6 (amended): in the main module, `getAll` drops exactly the bad entries
— a key whose fetch is rejected or whose object is absent or lacks
`todo_item_text` contributes nothing — and every well-formed entry is
returned, so a single bad entry never makes the (total) call fail; `get` of a
key whose object lacks `todo_item_text` returns null, the same as an absent
key, but `get` of a key whose fetch fails propagates the error rather than
returning null.  In the lightweight module, one listed key with a
non-not-found fetch failure rejects the whole `getAll`. -/
theorem getAll_validation_spec (c : Client) (now : Int) (m : Option Nat)
    (incl : Bool) :
    (∀ t, t ∈ Todonna.getAllWith c now m incl ↔
        ((∃ k, k ∈ c.getListing m ∧ k ∉ c.getFails ∧
          ∃ item, lookupStore (readStore c m) k = some item ∧
            item.todo_item_text.isSome = true ∧
            t = Todonna.fromTodonnaItem now k item) ∧
          (incl || !t.removed) = true)) ∧
    (∀ k, k ∈ c.getFails → Todonna.decodeEntry c now m k = none) ∧
    (∀ k item, k ∉ c.getFails → lookupStore (readStore c m) k = some item →
        item.todo_item_text = none → Todonna.decodeEntry c now m k = none) ∧
    (∀ id item, id ∉ c.getFails → lookupStore (readStore c m) id = some item →
        item.todo_item_text = none → Todonna.get c now id m = Except.ok none) ∧
    (∀ id, id ∉ c.getFails → lookupStore (readStore c m) id = none →
        Todonna.get c now id m = Except.ok none) ∧
    (∀ id, id ∈ c.getFails → Todonna.get c now id m = Except.error "fetch failed") ∧
    (∀ k, k ∈ c.getListing m → k ∈ c.getFails →
        ∃ e, TodonnaModule.rgetAll c m incl = Except.error e) := by
  refine ⟨?_, ?_, ?_, ?_, ?_, ?_, ?_⟩
  · intro t
    rw [mem_getAllWith]
    constructor
    · rintro ⟨⟨k, hkl, hdec⟩, hrem⟩
      obtain ⟨item, hl, ht, rfl, hgf⟩ := decodeEntry_some hdec
      exact ⟨⟨k, hkl, hgf, item, hl, ht, rfl⟩, hrem⟩
    · rintro ⟨⟨k, hkl, hgf, item, hl, ht, rfl⟩, hrem⟩
      exact ⟨⟨k, hkl, decodeEntry_eq_some hgf hl ht⟩, hrem⟩
  · intro k h
    simp [Todonna.decodeEntry, Client.getObject, h]
  · intro k item hgf hl ht
    simp [Todonna.decodeEntry, Client.getObject, hgf, hl, ht]
  · intro id item hgf hl ht
    simp [Todonna.get, Client.getObject, hgf, hl, ht]
  · intro id hgf hl
    simp [Todonna.get, Client.getObject, hgf, hl]
  · intro id h
    simp [Todonna.get, Client.getObject, h]
  · intro k hkl hgf
    obtain ⟨e, he⟩ := rmapEntries_error c m (c.getListing m) k hkl hgf
    exact ⟨e, by simp [TodonnaModule.rgetAll, he]⟩

/-- Witness for the amended C6 at `clientMix`. -/
theorem getAll_validation_spec_witness :
    Todonna.get clientMix 0 "bad" (some Todonna.DAY_MS) = Except.ok none ∧
    Todonna.get clientMix 0 "absent" (some Todonna.DAY_MS) = Except.ok none ∧
    Todonna.get clientMix 0 "failk" (some Todonna.DAY_MS) =
      Except.error "fetch failed" ∧
    (∃ e, TodonnaModule.rgetAll clientMix (some Todonna.DAY_MS) false =
      Except.error e) ∧
    (Todonna.fromTodonnaItem 0 "a" wPlainEnc ∈
      Todonna.getAllWith clientMix 0 (some Todonna.DAY_MS) false) := by
  have h := getAll_validation_spec clientMix 0 (some Todonna.DAY_MS) false
  refine ⟨h.2.2.2.1 "bad" wNoText (by decide) rfl rfl,
    h.2.2.2.2.1 "absent" (by decide) rfl,
    h.2.2.2.2.2.1 "failk" (by decide),
    h.2.2.2.2.2.2 "failk" (by decide) (by decide), ?_⟩
  exact (h.1 (Todonna.fromTodonnaItem 0 "a" wPlainEnc)).2
    ⟨⟨"a", by decide, by decide, wPlainEnc, rfl, rfl, rfl⟩, by rfl⟩

theorem add_ok_keys {c c2 : Client} {t : TodoItem}
    (h : Todonna.add c t = Except.ok c2) :
    ∀ x, x ∈ storeKeys c2.fresh ↔ x = t.id ∨ x ∈ storeKeys c.fresh := by
  unfold Todonna.add at h
  cases he : Todonna.toTodonnaItem t with
  | error e => rw [he] at h; simp at h
  | ok w =>
    rw [he] at h
    replace h : c.storeObject t.id w = Except.ok c2 := h
    unfold Client.storeObject at h
    by_cases ht : w.todo_item_text.isNone
    · rw [if_pos ht] at h; simp at h
    · rw [if_neg ht] at h
      by_cases hs : t.id ∈ c.storeFails
      · rw [if_pos hs] at h; simp at h
      · rw [if_neg hs] at h
        simp only [Except.ok.injEq] at h
        subst h
        intro x
        exact mem_keys_upsert

theorem update_ok_keys {c c2 : Client} {now : Int} {id : String} {p : PartialTodo}
    (h : Todonna.update c now id p = Except.ok c2) :
    ∀ x, x ∈ storeKeys c2.fresh ↔ x ∈ storeKeys c.fresh := by
  by_cases hgf : id ∈ c.getFails
  · exfalso
    have hbad : Todonna.update c now id p = Except.error "fetch failed" := by
      simp [Todonna.update, Client.getObject, hgf]
    rw [hbad] at h
    simp at h
  · cases hl : lookupStore c.fresh id with
    | none =>
      exfalso
      rw [update_not_found c now id p hgf hl] at h
      simp at h
    | some item =>
      rw [update_found c now id p item hgf hl] at h
      cases hw : Todonna.toTodonnaItem
          (mergedWithId (Todonna.fromTodonnaItem now id item) p id) with
      | error e => rw [hw] at h; simp at h
      | ok w =>
        rw [hw] at h
        replace h : c.storeObject id w = Except.ok c2 := h
        unfold Client.storeObject at h
        by_cases ht : w.todo_item_text.isNone
        · rw [if_pos ht] at h; simp at h
        · rw [if_neg ht] at h
          by_cases hs : id ∈ c.storeFails
          · rw [if_pos hs] at h; simp at h
          · rw [if_neg hs] at h
            simp only [Except.ok.injEq] at h
            subst h
            intro x
            have hid : id ∈ storeKeys c.fresh := mem_keys_of_lookup hl
            constructor
            · intro hx
              rcases mem_keys_upsert.1 hx with rfl | hx2
              · exact hid
              · exact hx2
            · intro hx
              exact mem_keys_upsert.2 (Or.inr hx)

theorem remove_ok_keys {c c2 : Client} {id : String}
    (h : Todonna.removeTodo c id = Except.ok c2) :
    ∀ x, x ∈ storeKeys c2.fresh ↔ x ∈ storeKeys c.fresh ∧ x ≠ id := by
  unfold Todonna.removeTodo Client.removeObject at h
  by_cases hr : id ∈ c.removeFails
  · rw [if_pos hr] at h; simp at h
  · rw [if_neg hr] at h
    simp only [Except.ok.injEq] at h
    subst h
    intro x
    exact mem_keys_erase

theorem batchAdd_keys : ∀ (ts : List TodoItem) (c : Client),
    (Todonna.batchAdd c ts false).2.failed = 0 →
    ∀ x, (x ∈ storeKeys (Todonna.batchAdd c ts false).1.fresh ↔
      x ∈ storeKeys c.fresh ∨ x ∈ ts.map (fun t => t.id)) := by
  intro ts
  induction ts with
  | nil => intro c hf x; simp [Todonna.batchAdd, Todonna.batchRun]
  | cons t rest ih =>
    intro c hf x
    cases hs : Todonna.add c t with
    | ok c2 =>
      have hf2 : (Todonna.batchAdd c2 rest false).2.failed = 0 := by
        simp only [Todonna.batchAdd, Todonna.batchRun, hs] at hf
        simpa [Todonna.batchAdd] using hf
      have hrec := ih c2 hf2 x
      have hkeys := add_ok_keys hs
      simp only [Todonna.batchAdd] at hrec
      simp only [Todonna.batchAdd, Todonna.batchRun, hs, List.map_cons, List.mem_cons]
      rw [hrec, hkeys x]
      tauto
    | error e =>
      exfalso
      simp [Todonna.batchAdd, Todonna.batchRun, hs] at hf

theorem batchUpdate_keys : ∀ (items : List (String × PartialTodo)) (c : Client)
    (now : Int), (Todonna.batchUpdate c now items false).2.failed = 0 →
    ∀ x, (x ∈ storeKeys (Todonna.batchUpdate c now items false).1.fresh ↔
      x ∈ storeKeys c.fresh) := by
  intro items
  induction items with
  | nil => intro c now hf x; simp [Todonna.batchUpdate, Todonna.batchRun]
  | cons a rest ih =>
    intro c now hf x
    cases hs : Todonna.update c now a.1 a.2 with
    | ok c2 =>
      have hf2 : (Todonna.batchUpdate c2 now rest false).2.failed = 0 := by
        simp only [Todonna.batchUpdate, Todonna.batchRun, hs] at hf
        simpa [Todonna.batchUpdate] using hf
      have hrec := ih c2 now hf2 x
      have hkeys := update_ok_keys hs
      simp only [Todonna.batchUpdate] at hrec
      simp only [Todonna.batchUpdate, Todonna.batchRun, hs]
      rw [hrec, hkeys x]
    | error e =>
      exfalso
      simp [Todonna.batchUpdate, Todonna.batchRun, hs] at hf

theorem batchRemove_keys : ∀ (ids : List String) (c : Client),
    (Todonna.batchRemove c ids false).2.failed = 0 →
    ∀ x, (x ∈ storeKeys (Todonna.batchRemove c ids false).1.fresh ↔
      x ∈ storeKeys c.fresh ∧ x ∉ ids) := by
  intro ids
  induction ids with
  | nil => intro c hf x; simp [Todonna.batchRemove, Todonna.batchRun]
  | cons i rest ih =>
    intro c hf x
    cases hs : Todonna.removeTodo c i with
    | ok c2 =>
      have hf2 : (Todonna.batchRemove c2 rest false).2.failed = 0 := by
        simp only [Todonna.batchRemove, Todonna.batchRun, hs] at hf
        simpa [Todonna.batchRemove] using hf
      have hrec := ih c2 hf2 x
      have hkeys := remove_ok_keys hs
      simp only [Todonna.batchRemove] at hrec
      simp only [Todonna.batchRemove, Todonna.batchRun, hs, List.mem_cons]
      rw [hrec, hkeys x]
      tauto
    | error e =>
      exfalso
      simp [Todonna.batchRemove, Todonna.batchRun, hs] at hf

theorem snapshot_ids (c : Client) (now : Int)
    (hsync : c.cache = c.fresh) (hgf : c.getFails = [])
    (hwf : ∀ k item, lookupStore c.fresh k = some item →
      item.todo_item_text.isSome = true ∧ jsOrString item.todo_item_id k = k) :
    ∀ x, (x ∈ Todonna.snapshotIds c now ↔ x ∈ storeKeys c.fresh) := by
  have hrs : readStore c (some Todonna.DAY_MS) = c.fresh := by
    rw [show readStore c (some Todonna.DAY_MS) = c.cache from by
        simp [readStore, Todonna.DAY_MS], hsync]
  intro x
  simp only [Todonna.snapshotIds, Todonna.existingSnapshot]
  constructor
  · intro hx
    obtain ⟨t, ht, rfl⟩ := List.mem_map.1 hx
    obtain ⟨⟨k, hkl, hdec⟩, _⟩ := mem_getAllWith.1 ht
    obtain ⟨item, hl, htx, rfl, _⟩ := decodeEntry_some hdec
    rw [hrs] at hl
    have hid : (Todonna.fromTodonnaItem now k item).id = k := (hwf k item hl).2
    rw [hid]
    exact mem_keys_of_lookup hl
  · intro hx
    obtain ⟨item, hl⟩ := lookup_of_mem_keys hx
    have htx := (hwf x item hl).1
    have hid := (hwf x item hl).2
    have hl2 : lookupStore (readStore c (some Todonna.DAY_MS)) x = some item := by
      rw [hrs]; exact hl
    have hmem : Todonna.fromTodonnaItem now x item ∈
        Todonna.getAllWith c now (some Todonna.DAY_MS) true := by
      refine mem_getAllWith.2 ⟨⟨x, ?_, decodeEntry_eq_some ?_ hl2 htx⟩, by simp⟩
      · show x ∈ storeKeys (readStore c (some Todonna.DAY_MS))
        rw [hrs]; exact hx
      · rw [hgf]
        exact List.not_mem_nil x
    exact List.mem_map.2 ⟨_, hmem, hid⟩

theorem toAddL_ids (todos : List TodoItem) (eIds : List String) :
    ∀ x, (x ∈ (Todonna.toAddL todos eIds).map (fun t => t.id) ↔
      (x ∈ todos.map (fun t => t.id) ∧ x ∉ eIds)) := by
  intro x
  simp only [Todonna.toAddL, List.mem_map, List.mem_filter, decide_eq_true_eq]
  constructor
  · rintro ⟨t, ⟨ht, hp⟩, rfl⟩
    exact ⟨⟨t, ht, rfl⟩, hp⟩
  · rintro ⟨⟨t, ht, rfl⟩, hnot⟩
    exact ⟨t, ⟨ht, hnot⟩, rfl⟩

theorem toUpdateL_ids (todos : List TodoItem) (eIds : List String) :
    ∀ x, (x ∈ (Todonna.toUpdateL todos eIds).map (fun t => t.id) ↔
      (x ∈ todos.map (fun t => t.id) ∧ x ∈ eIds)) := by
  intro x
  simp only [Todonna.toUpdateL, List.mem_map, List.mem_filter, decide_eq_true_eq]
  constructor
  · rintro ⟨t, ⟨ht, hp⟩, rfl⟩
    exact ⟨⟨t, ht, rfl⟩, hp⟩
  · rintro ⟨⟨t, ht, rfl⟩, hin⟩
    exact ⟨t, ⟨ht, hin⟩, rfl⟩

theorem toRemoveL_ids (existing : List TodoItem) (nIds : List String) :
    ∀ x, (x ∈ Todonna.toRemoveL existing nIds ↔
      (x ∈ existing.map (fun t => t.id) ∧ x ∉ nIds)) := by
  intro x
  simp only [Todonna.toRemoveL, List.mem_map, List.mem_filter, decide_eq_true_eq]
  constructor
  · rintro ⟨t, ⟨ht, hp⟩, rfl⟩
    exact ⟨⟨t, ht, rfl⟩, hp⟩
  · rintro ⟨⟨t, ht, rfl⟩, hnot⟩
    exact ⟨t, ⟨ht, hnot⟩, rfl⟩

/-- C1: `replaceAll(new)` from the snapshot `old` computes `toAdd` as the new
records whose ids are not in `old`, `toUpdate` as those whose ids are in
`old`, and `toRemove` as the `old` ids not among the new ids; the three id
sets are pairwise disjoint and together are exactly `old ∪ new`; and when
every sub-batch item succeeds (`failed = 0`) the resulting scope's key set
equals `new`'s id set.  The snapshot hypotheses say the cache agrees with the
store and every stored object is decodable with an id matching its key. -/
theorem replaceAll_reconciliation (c : Client) (now : Int) (todos : List TodoItem)
    (hsync : c.cache = c.fresh) (hgf : c.getFails = [])
    (hwf : ∀ k item, lookupStore c.fresh k = some item →
      item.todo_item_text.isSome = true ∧ jsOrString item.todo_item_id k = k) :
    (∀ x, x ∈ (Todonna.toAddL todos (Todonna.snapshotIds c now)).map (fun t => t.id) ↔
        (x ∈ Todonna.newIds todos ∧ x ∉ Todonna.snapshotIds c now)) ∧
    (∀ x, x ∈ (Todonna.toUpdateL todos (Todonna.snapshotIds c now)).map (fun t => t.id) ↔
        (x ∈ Todonna.newIds todos ∧ x ∈ Todonna.snapshotIds c now)) ∧
    (∀ x, x ∈ Todonna.toRemoveL (Todonna.existingSnapshot c now) (Todonna.newIds todos) ↔
        (x ∈ Todonna.snapshotIds c now ∧ x ∉ Todonna.newIds todos)) ∧
    (∀ x,
      ¬(x ∈ (Todonna.toAddL todos (Todonna.snapshotIds c now)).map (fun t => t.id) ∧
        x ∈ (Todonna.toUpdateL todos (Todonna.snapshotIds c now)).map (fun t => t.id)) ∧
      ¬(x ∈ (Todonna.toAddL todos (Todonna.snapshotIds c now)).map (fun t => t.id) ∧
        x ∈ Todonna.toRemoveL (Todonna.existingSnapshot c now) (Todonna.newIds todos)) ∧
      ¬(x ∈ (Todonna.toUpdateL todos (Todonna.snapshotIds c now)).map (fun t => t.id) ∧
        x ∈ Todonna.toRemoveL (Todonna.existingSnapshot c now) (Todonna.newIds todos))) ∧
    (∀ x, (x ∈ Todonna.snapshotIds c now ∨ x ∈ Todonna.newIds todos) ↔
        (x ∈ (Todonna.toAddL todos (Todonna.snapshotIds c now)).map (fun t => t.id) ∨
          x ∈ (Todonna.toUpdateL todos (Todonna.snapshotIds c now)).map (fun t => t.id) ∨
          x ∈ Todonna.toRemoveL (Todonna.existingSnapshot c now) (Todonna.newIds todos))) ∧
    ((Todonna.replaceAll c now todos).2.failed = 0 →
      ∀ x, (x ∈ storeKeys (Todonna.replaceAll c now todos).1.fresh ↔
        x ∈ Todonna.newIds todos)) := by
  have hA := toAddL_ids todos (Todonna.snapshotIds c now)
  have hU := toUpdateL_ids todos (Todonna.snapshotIds c now)
  have hR := toRemoveL_ids (Todonna.existingSnapshot c now) (Todonna.newIds todos)
  have hRid : ∀ x, (x ∈ Todonna.toRemoveL (Todonna.existingSnapshot c now)
      (Todonna.newIds todos) ↔
      (x ∈ Todonna.snapshotIds c now ∧ x ∉ Todonna.newIds todos)) := by
    intro x
    rw [hR x]
    rfl
  have hAid : ∀ x, (x ∈ (Todonna.toAddL todos (Todonna.snapshotIds c now)).map
      (fun t => t.id) ↔ (x ∈ Todonna.newIds todos ∧ x ∉ Todonna.snapshotIds c now)) := by
    intro x
    rw [hA x]
    rfl
  have hUid : ∀ x, (x ∈ (Todonna.toUpdateL todos (Todonna.snapshotIds c now)).map
      (fun t => t.id) ↔ (x ∈ Todonna.newIds todos ∧ x ∈ Todonna.snapshotIds c now)) := by
    intro x
    rw [hU x]
    rfl
  refine ⟨hAid, hUid, hRid, ?_, ?_, ?_⟩
  · intro x
    rw [hAid x, hUid x, hRid x]
    tauto
  · intro x
    rw [hAid x, hUid x, hRid x]
    tauto
  · intro hf x
    have hS := snapshot_ids c now hsync hgf hwf
    unfold Todonna.replaceAll at hf ⊢
    simp only [] at hf ⊢
    have h1 : (Todonna.batchAdd c
        (Todonna.toAddL todos (Todonna.snapshotIds c now)) false).2.failed = 0 := by
      omega
    have h2 : (Todonna.batchUpdate
        (Todonna.batchAdd c (Todonna.toAddL todos (Todonna.snapshotIds c now)) false).1
        now ((Todonna.toUpdateL todos (Todonna.snapshotIds c now)).map
          (fun t => (t.id, partialOfTodo t))) false).2.failed = 0 := by
      omega
    have h3 : (Todonna.batchRemove
        (Todonna.batchUpdate
          (Todonna.batchAdd c (Todonna.toAddL todos (Todonna.snapshotIds c now)) false).1
          now ((Todonna.toUpdateL todos (Todonna.snapshotIds c now)).map
            (fun t => (t.id, partialOfTodo t))) false).1
        (Todonna.toRemoveL (Todonna.existingSnapshot c now) (Todonna.newIds todos))
        false).2.failed = 0 := by
      omega
    have kA := batchAdd_keys (Todonna.toAddL todos (Todonna.snapshotIds c now)) c h1 x
    have kU := batchUpdate_keys
      ((Todonna.toUpdateL todos (Todonna.snapshotIds c now)).map
        (fun t => (t.id, partialOfTodo t)))
      (Todonna.batchAdd c (Todonna.toAddL todos (Todonna.snapshotIds c now)) false).1
      now h2 x
    have kR := batchRemove_keys
      (Todonna.toRemoveL (Todonna.existingSnapshot c now) (Todonna.newIds todos))
      (Todonna.batchUpdate
        (Todonna.batchAdd c (Todonna.toAddL todos (Todonna.snapshotIds c now)) false).1
        now ((Todonna.toUpdateL todos (Todonna.snapshotIds c now)).map
          (fun t => (t.id, partialOfTodo t))) false).1
      h3 x
    rw [kR, kU, kA, hAid x, hRid x, ← hS x]
    tauto

/-- Wire object for the pre-existing record of the C1 witness (id `"1"`,
status pending). -/
def w1 : TodonnaItem :=
  { todo_item_id := some "1", todo_item_text := some "t1",
    todo_item_status := some TStatus.pending, emoji := none, date := none,
    time := none, completed := none, removed := none }

/-- A synced one-record client for the C1 witness. -/
def clientOne : Client :=
  { fresh := [("1", w1)], cache := [("1", w1)],
    getFails := [], storeFails := [], removeFails := [] }

/-- New record with the existing id, now done. -/
def t1done : TodoItem :=
  { id := "1", text := some "t1", completed := some true,
    todo_item_status := none, emoji := none, date := none, time := none,
    removed := false }

/-- New record with a fresh id. -/
def t2new : TodoItem :=
  { id := "2", text := some "t2", completed := some false,
    todo_item_status := none, emoji := none, date := none, time := none,
    removed := false }

/-- Witness for C1 on the spec's reconciliation scenario: existing `{1}`,
`replaceAll([1 done, 2 pending])` succeeds fully and the resulting key set is
exactly `{1, 2}`. -/
theorem replaceAll_reconciliation_witness :
    (Todonna.replaceAll clientOne 0 [t1done, t2new]).2.failed = 0 ∧
    ("1" ∈ storeKeys (Todonna.replaceAll clientOne 0 [t1done, t2new]).1.fresh ↔
      "1" ∈ Todonna.newIds [t1done, t2new]) ∧
    ("2" ∈ storeKeys (Todonna.replaceAll clientOne 0 [t1done, t2new]).1.fresh ↔
      "2" ∈ Todonna.newIds [t1done, t2new]) ∧
    ("9" ∈ storeKeys (Todonna.replaceAll clientOne 0 [t1done, t2new]).1.fresh ↔
      "9" ∈ Todonna.newIds [t1done, t2new]) ∧
    ("2" ∈ (Todonna.toAddL [t1done, t2new]
        (Todonna.snapshotIds clientOne 0)).map (fun t => t.id) ↔
      ("2" ∈ Todonna.newIds [t1done, t2new] ∧
        "2" ∉ Todonna.snapshotIds clientOne 0)) := by
  have hwf : ∀ k item, lookupStore clientOne.fresh k = some item →
      item.todo_item_text.isSome = true ∧ jsOrString item.todo_item_id k = k := by
    intro k item hl
    have hm := lookupStore_mem hl
    simp only [clientOne, List.mem_singleton, Prod.mk.injEq] at hm
    obtain ⟨rfl, rfl⟩ := hm
    exact ⟨rfl, rfl⟩
  have h := replaceAll_reconciliation clientOne 0 [t1done, t2new] rfl rfl hwf
  have hf : (Todonna.replaceAll clientOne 0 [t1done, t2new]).2.failed = 0 := by decide
  exact ⟨hf, h.2.2.2.2.2 hf "1", h.2.2.2.2.2 hf "2", h.2.2.2.2.2 hf "9",
    h.1 "2"⟩

/-- Witness for C9 at concrete inputs. -/
theorem codec_removed_status_invariants_witness :
    (Todonna.fromTodonnaItem 0 "a" wArchived).todo_item_status = some TStatus.pending ∧
    wPlainEnc.removed = none ∧
    ((Todonna.fromTodonnaItem 0 "a" wArchived).removed = false ∧
      ((Todonna.fromTodonnaItem 0 "a" wArchived).todo_item_status = some TStatus.done ∨
        (Todonna.fromTodonnaItem 0 "a" wArchived).todo_item_status = some TStatus.pending)) := by
  have h := codec_removed_status_invariants
  refine ⟨h.2.2.1 0 "a" wArchived rfl, h.2.2.2.1 tPlain wPlainEnc (by rfl), ?_⟩
  exact h.2.2.2.2.1 clientA 0 "a" (some 0) (Todonna.fromTodonnaItem 0 "a" wArchived) rfl
